import Mathlib

/-!
Verification development for the mizan-sdk governed-agent runtime.

The TypeScript sources are shallowly embedded: pure functions become Lean
functions, class state becomes explicit state passing, JavaScript numbers
appearing in the embedded fragments are modelled as exact rationals (every
number reachable in the verified paths is a short decimal literal or an
integer, for which JavaScript's shortest-round-trip printing agrees with
the exact decimal expansion), thrown exceptions become `Except`, and the
effectful identifier/timestamp sources (`crypto.randomUUID`, `new Date`)
become explicit parameters.
-/

set_option maxRecDepth 1000000

attribute [local semireducible] Rat.add Rat.mul Rat.inv Rat.sub

namespace Mizan

/-! ## SHA-256 (embedding of Node's `crypto.createHash('sha256')` as used by
`AuditLogger.computeHash`): bytewise FIPS 180-4 over the UTF-8 encoding. -/

namespace Sha

def w32 (n : Nat) : Nat := n % 4294967296

def rotr (n x : Nat) : Nat :=
  w32 (Nat.lor (Nat.shiftRight x n) (Nat.shiftLeft x (32 - n)))

def shr (n x : Nat) : Nat := Nat.shiftRight x n

def kConsts : List Nat :=
  [1116352408, 1899447441, 3049323471, 3921009573,
   961987163, 1508970993, 2453635748, 2870763221,
   3624381080, 310598401, 607225278, 1426881987,
   1925078388, 2162078206, 2614888103, 3248222580,
   3835390401, 4022224774, 264347078, 604807628,
   770255983, 1249150122, 1555081692, 1996064986,
   2554220882, 2821834349, 2952996808, 3210313671,
   3336571891, 3584528711, 113926993, 338241895,
   666307205, 773529912, 1294757372, 1396182291,
   1695183700, 1986661051, 2177026350, 2456956037,
   2730485921, 2820302411, 3259730800, 3345764771,
   3516065817, 3600352804, 4094571909, 275423344,
   430227734, 506948616, 659060556, 883997877,
   958139571, 1322822218, 1537002063, 1747873779,
   1955562222, 2024104815, 2227730452, 2361852424,
   2428436474, 2756734187, 3204031479, 3329325298]

def initH : List Nat :=
  [1779033703, 3144134277, 1013904242, 2773480762,
   1359893119, 2600822924, 528734635, 1541459225]

def padMessage (msg : List Nat) : List Nat :=
  let len := msg.length
  let bitLen := 8 * len
  let zeros := (119 - len % 64) % 64
  msg ++ [0x80] ++ List.replicate zeros 0 ++
    [(bitLen / 72057594037927936) % 256, (bitLen / 281474976710656) % 256,
     (bitLen / 1099511627776) % 256, (bitLen / 4294967296) % 256,
     (bitLen / 16777216) % 256, (bitLen / 65536) % 256,
     (bitLen / 256) % 256, bitLen % 256]

def toChunksAux : Nat → List Nat → List (List Nat)
  | 0, _ => []
  | _ + 1, [] => []
  | fuel + 1, l => l.take 64 :: toChunksAux fuel (l.drop 64)

def toChunks (l : List Nat) : List (List Nat) :=
  toChunksAux l.length l

def bytesToWords (chunk : List Nat) : List Nat :=
  (List.range 16).map fun i =>
    (chunk.getD (4 * i) 0) * 16777216 + (chunk.getD (4 * i + 1) 0) * 65536 +
    (chunk.getD (4 * i + 2) 0) * 256 + chunk.getD (4 * i + 3) 0

def extendWords (w16 : List Nat) : Array Nat :=
  (List.range 48).foldl
    (fun ws _ =>
      let i := ws.size
      let w15 := ws.getD (i - 15) 0
      let w2 := ws.getD (i - 2) 0
      let s0 := Nat.xor (rotr 7 w15) (Nat.xor (rotr 18 w15) (shr 3 w15))
      let s1 := Nat.xor (rotr 17 w2) (Nat.xor (rotr 19 w2) (shr 10 w2))
      ws.push (w32 (ws.getD (i - 16) 0 + s0 + ws.getD (i - 7) 0 + s1)))
    w16.toArray

def compress (hs : List Nat) (chunk : List Nat) : List Nat :=
  let ws := extendWords (bytesToWords chunk)
  let final := (List.range 64).foldl
    (fun st i =>
      match st with
      | (a, b, c, d, e, f, g, h) =>
        let s1 := Nat.xor (rotr 6 e) (Nat.xor (rotr 11 e) (rotr 25 e))
        let ch := Nat.xor (Nat.land e f) (Nat.land (4294967295 - e) g)
        let t1 := w32 (h + s1 + ch + kConsts.getD i 0 + ws.getD i 0)
        let s0 := Nat.xor (rotr 2 a) (Nat.xor (rotr 13 a) (rotr 22 a))
        let maj := Nat.xor (Nat.land a b) (Nat.xor (Nat.land a c) (Nat.land b c))
        let t2 := w32 (s0 + maj)
        (w32 (t1 + t2), a, b, c, w32 (d + t1), e, f, g))
    (hs.getD 0 0, hs.getD 1 0, hs.getD 2 0, hs.getD 3 0,
     hs.getD 4 0, hs.getD 5 0, hs.getD 6 0, hs.getD 7 0)
  match final with
  | (a, b, c, d, e, f, g, h) =>
    [w32 (hs.getD 0 0 + a), w32 (hs.getD 1 0 + b), w32 (hs.getD 2 0 + c), w32 (hs.getD 3 0 + d),
     w32 (hs.getD 4 0 + e), w32 (hs.getD 5 0 + f), w32 (hs.getD 6 0 + g), w32 (hs.getD 7 0 + h)]

def sha256Bytes (msg : List Nat) : List Nat :=
  ((toChunks (padMessage msg)).foldl compress initH).foldr
    (fun word acc =>
      [word / 16777216, (word / 65536) % 256, (word / 256) % 256, word % 256] ++ acc) []

def hexDigits : List Char :=
  "0123456789abcdef".toList

def byteToHex (b : Nat) : List Char :=
  [hexDigits.getD (b / 16) '0', hexDigits.getD (b % 16) '0']

def utf8Bytes (s : String) : List Nat :=
  s.toList.flatMap fun c =>
    let n := c.toNat
    if n < 128 then [n]
    else if n < 2048 then [192 + n / 64, 128 + n % 64]
    else if n < 65536 then [224 + n / 4096, 128 + (n / 64) % 64, 128 + n % 64]
    else [240 + n / 262144, 128 + (n / 4096) % 64, 128 + (n / 64) % 64, 128 + n % 64]

/-- Lowercase hex SHA-256 digest of a string, `crypto.createHash('sha256').update(s).digest('hex')`. -/
def sha256Hex (s : String) : String :=
  String.mk ((sha256Bytes (utf8Bytes s)).flatMap byteToHex)

end Sha

/-! ## JavaScript runtime values

`Value` models the dynamic values flowing through the expression evaluator
and the audit logger: the facts mapping holds strings, numbers, booleans,
null and nested objects (spec §3 "Facts").  JavaScript numbers are modelled
as exact rationals.  Arrays are not modelled: no claim under verification
mentions an ordered sequence.  `vUndef` is the distinguished `undefined`
value produced by missing identifier segments. -/

inductive Value where
  | vUndef : Value
  | vNull : Value
  | vBool : Bool → Value
  | vNum : ℚ → Value
  | vStr : String → Value
  | vObj : List (String × Value) → Value

open Value

/-- JavaScript truthiness (`Boolean(v)`): `undefined`, `null`, `false`, `0`
and the empty string are falsy, everything else (objects included) truthy. -/
def truthy : Value → Bool
  | vUndef => false
  | vNull => false
  | vBool b => b
  | vNum q => q != 0
  | vStr s => s != ""
  | vObj _ => true

/-- `ToPrimitive` on the modelled values: primitives are unchanged and a plain
object converts to the string `"[object Object]"` (default `toString`). -/
def toPrimitive : Value → Value
  | vObj _ => vStr "[object Object]"
  | v => v

/-- The whitespace class of JavaScript's `/\s/` and of `Number()` trimming:
tab through carriage return, space, NBSP, the Unicode space separators, the
line separators U+2028/U+2029, narrow/medium/ideographic spaces and the BOM. -/
def isJsSpaceChar (c : Char) : Bool :=
  let n := c.toNat
  (9 ≤ n && n ≤ 13) || n = 32 || n = 160 || n = 5760 ||
  (8192 ≤ n && n ≤ 8202) || n = 8232 || n = 8233 || n = 8239 || n = 8287 ||
  n = 12288 || n = 65279

def digitsToNat (ds : List Char) : Nat :=
  ds.foldl (fun a c => a * 10 + (c.toNat - 48)) 0

/-- The result domain of JavaScript `ToNumber`: NaN, the two infinities, or
a finite value (modelled as an exact rational; double rounding and overflow
to Infinity of out-of-range finite literals are outside the model). -/
inductive JSNum where
  | nan : JSNum
  | posInf : JSNum
  | negInf : JSNum
  | fin : ℚ → JSNum
  deriving DecidableEq

/-- Value 0–15 of a hexadecimal digit character. -/
def digitValue (c : Char) : Option Nat :=
  let n := c.toNat
  if 48 ≤ n && n ≤ 57 then some (n - 48)
  else if 97 ≤ n && n ≤ 102 then some (n - 87)
  else if 65 ≤ n && n ≤ 70 then some (n - 55)
  else none

/-- Reads a non-empty digit string in the given base (2, 8 or 16); `none`
when empty or any character is not a digit of that base. -/
def digitsInBase (base : Nat) (cs : List Char) : Option Nat :=
  if cs.isEmpty then none
  else
    cs.foldl
      (fun acc c =>
        match acc, digitValue c with
        | some a, some d => if d < base then some (a * base + d) else none
        | _, _ => none)
      (some 0)

/-- `StrDecimalLiteral` after the optional sign has been removed:
`Infinity`, or decimal digits with optional fraction and optional exponent
part; anything else (including trailing characters) is NaN. -/
def strDecimal (neg : Bool) (body : List Char) : JSNum :=
  if body = "Infinity".toList then (if neg then .negInf else .posInf)
  else
    let intDigits := body.takeWhile Char.isDigit
    let afterInt := body.drop intDigits.length
    let (fracDigits, afterFrac) : List Char × List Char :=
      match afterInt with
      | '.' :: rest => (rest.takeWhile Char.isDigit, rest.drop (rest.takeWhile Char.isDigit).length)
      | _ => ([], afterInt)
    if intDigits.isEmpty && fracDigits.isEmpty then .nan
    else
      let signQ : ℚ := if neg then -1 else 1
      let mant : ℚ := (digitsToNat intDigits : ℚ) +
        (digitsToNat fracDigits : ℚ) / ((10 ^ fracDigits.length : Nat) : ℚ)
      match afterFrac with
      | [] => .fin (signQ * mant)
      | e :: rest =>
        if e = 'e' || e = 'E' then
          let (eneg, expBody) : Bool × List Char :=
            match rest with
            | '-' :: r2 => (true, r2)
            | '+' :: r2 => (false, r2)
            | _ => (false, rest)
          let expDigits := expBody.takeWhile Char.isDigit
          if expDigits.isEmpty || expBody.drop expDigits.length ≠ [] then .nan
          else
            let scale : ℚ := ((10 ^ digitsToNat expDigits : Nat) : ℚ)
            .fin (signQ * (if eneg then mant / scale else mant * scale))
        else .nan

/-- `ToNumber` on a string (`Number(s)` / the coercion used by `==` and the
ordering operators): whitespace-trimmed; empty is 0; `0x`/`0o`/`0b` integer
literals (no sign); otherwise an optionally signed decimal literal with
optional fraction and exponent, or signed `Infinity`; anything else NaN. -/
def strToNum (s : String) : JSNum :=
  let cs := (s.toList.dropWhile isJsSpaceChar).reverse.dropWhile isJsSpaceChar |>.reverse
  match cs with
  | [] => .fin 0
  | '0' :: x :: rest =>
    if x = 'x' || x = 'X' then
      (match digitsInBase 16 rest with
       | some n => .fin n
       | none => .nan)
    else if x = 'o' || x = 'O' then
      (match digitsInBase 8 rest with
       | some n => .fin n
       | none => .nan)
    else if x = 'b' || x = 'B' then
      (match digitsInBase 2 rest with
       | some n => .fin n
       | none => .nan)
    else strDecimal false cs
  | '-' :: rest => strDecimal true rest
  | '+' :: rest => strDecimal false rest
  | _ => strDecimal false cs

/-- `ToNumber` on a primitive value. -/
def toNumber : Value → JSNum
  | vUndef => .nan
  | vNull => .fin 0
  | vBool b => .fin (if b then 1 else 0)
  | vNum q => .fin q
  | vStr s => strToNum s
  | vObj _ => .nan

def charListLt : List Char → List Char → Bool
  | [], [] => false
  | [], _ :: _ => true
  | _ :: _, [] => false
  | a :: as, b :: bs =>
    if a.toNat < b.toNat then true
    else if b.toNat < a.toNat then false
    else charListLt as bs

/-- Code-unit—wise lexicographic `<` on strings (JavaScript string ordering;
agrees with code-point order on the basic multilingual plane). -/
def strLt (a b : String) : Bool :=
  charListLt a.toList b.toList

/-- JavaScript loose equality `==` restricted to the modelled value domain.
A boolean operand is first coerced with `ToNumber` (0/1); those coercion
steps are unfolded here rather than recursed on.  Object-to-object
comparison is reference identity in JavaScript; values in this embedding
carry no identity, and no theorem below compares two objects, so that case
is fixed to `false`. -/
def looseEq : Value → Value → Bool
  | vUndef, vUndef => true
  | vUndef, vNull => true
  | vNull, vUndef => true
  | vNull, vNull => true
  | vUndef, _ => false
  | _, vUndef => false
  | vNull, _ => false
  | _, vNull => false
  | vNum a, vNum b => a == b
  | vStr a, vStr b => a == b
  | vBool a, vBool b => a == b
  | vBool a, vNum b => (if a then (1 : ℚ) else 0) == b
  | vNum a, vBool b => a == (if b then (1 : ℚ) else 0)
  | vBool a, vStr s => (match strToNum s with
      | JSNum.fin b => (if a then (1 : ℚ) else 0) == b
      | _ => false)
  | vStr s, vBool b => (match strToNum s with
      | JSNum.fin a => a == (if b then (1 : ℚ) else 0)
      | _ => false)
  | vBool _, vObj _ => false
  | vObj _, vBool _ => false
  | vNum a, vStr s => (match strToNum s with | JSNum.fin b => a == b | _ => false)
  | vStr s, vNum b => (match strToNum s with | JSNum.fin a => a == b | _ => false)
  | vNum _, vObj _ => false
  | vObj _, vNum _ => false
  | vStr a, vObj _ => a == "[object Object]"
  | vObj _, vStr b => "[object Object]" == b
  | vObj _, vObj _ => false

/-- JavaScript strict equality `===`: equal type and equal value, no
coercion.  Object-to-object is reference identity, fixed to `false` as for
`looseEq` (never exercised by the theorems below). -/
def strictEq : Value → Value → Bool
  | vUndef, vUndef => true
  | vNull, vNull => true
  | vBool a, vBool b => a == b
  | vNum a, vNum b => a == b
  | vStr a, vStr b => a == b
  | _, _ => false

/-- `<` on coerced numbers: false whenever either side is NaN, the
infinities below and above every finite value. -/
def jsNumLt : JSNum → JSNum → Bool
  | .nan, _ => false
  | _, .nan => false
  | .negInf, .negInf => false
  | .negInf, _ => true
  | _, .negInf => false
  | .posInf, _ => false
  | _, .posInf => true
  | .fin a, .fin b => a < b

/-- `<=` on coerced numbers: false whenever either side is NaN, otherwise
the complement of the reversed strict comparison. -/
def jsNumLe : JSNum → JSNum → Bool
  | .nan, _ => false
  | _, .nan => false
  | .negInf, _ => true
  | _, .negInf => false
  | _, .posInf => true
  | .posInf, _ => false
  | .fin a, .fin b => a ≤ b

/-- The JavaScript abstract relational comparison `l < r`: after
`ToPrimitive`, two strings compare lexicographically; otherwise both sides
are coerced with `ToNumber` and any NaN makes the comparison false. -/
def jsLt (l r : Value) : Bool :=
  match toPrimitive l, toPrimitive r with
  | vStr a, vStr b => strLt a b
  | l', r' => jsNumLt (toNumber l') (toNumber r')

def jsGt (l r : Value) : Bool :=
  match toPrimitive l, toPrimitive r with
  | vStr a, vStr b => strLt b a
  | l', r' => jsNumLt (toNumber r') (toNumber l')

def jsLe (l r : Value) : Bool :=
  match toPrimitive l, toPrimitive r with
  | vStr a, vStr b => !strLt b a
  | l', r' => jsNumLe (toNumber l') (toNumber r')

def jsGe (l r : Value) : Bool :=
  match toPrimitive l, toPrimitive r with
  | vStr a, vStr b => !strLt a b
  | l', r' => jsNumLe (toNumber r') (toNumber l')

/-! ## ExpressionEvaluator (src/ExpressionEvaluator.ts)

Safe boolean expression evaluator for rule conditions: a tokenizer and a
fused recursive-descent parser/evaluator, with no host-language dynamic
code.  The parser's mutable cursor becomes an explicit position; its
recursion is driven by a fuel argument (the depth of the recursion is
bounded by the token count, and `evaluate` supplies ample fuel). -/

inductive CmpOp where
  | gt | ge | lt | le | seq | leq | sneq | lneq
  deriving DecidableEq

inductive Token where
  | tNum : ℚ → Token
  | tStr : String → Token
  | tBool : Bool → Token
  | tNull : Token
  | tIdent : String → Token
  | tOp : CmpOp → Token
  | tAnd : Token
  | tOr : Token
  | tNot : Token
  | tLParen : Token
  | tRParen : Token
  | tEof : Token
  deriving DecidableEq

def isIdentStart (c : Char) : Bool :=
  (c ≥ 'a' && c ≤ 'z') || (c ≥ 'A' && c ≤ 'Z') || c = '_' || c = '$'

def isIdentChar (c : Char) : Bool :=
  isIdentStart c || c.isDigit || c = '.'

/-- Scan a quoted string literal body (after the opening quote): a backslash
takes the following character literally; reaching the end of input without
the closing quote is an error (`Unterminated string literal`). -/
def scanStringLit (q : Char) : List Char → Except String (List Char × List Char)
  | [] => .error "Unterminated string literal"
  | '\\' :: rest =>
    match rest with
    | [] => .error "Unterminated string literal"
    | c :: rest' => do
      let (body, after) ← scanStringLit q rest'
      return (c :: body, after)
  | c :: rest =>
    if c = q then .ok ([], rest)
    else do
      let (body, after) ← scanStringLit q rest
      return (c :: body, after)

/-- One step of the tokenizer loop, mirroring the source's case order:
whitespace, string literal, number literal, three- then two- then one-
character operators, identifiers/keywords, otherwise an error. -/
def tokenizeAux : Nat → List Char → Except String (List Token)
  | 0, _ => .error "fuel exhausted"
  | _ + 1, [] => .ok [Token.tEof]
  | fuel + 1, c :: rest =>
    if isJsSpaceChar c then tokenizeAux fuel rest
    else if c = '"' || c = '\'' then do
      let (body, after) ← scanStringLit c rest
      let ts ← tokenizeAux fuel after
      return Token.tStr (String.mk body) :: ts
    else if c.isDigit then
      let intDigits := (c :: rest).takeWhile Char.isDigit
      let afterInt := (c :: rest).drop intDigits.length
      match afterInt with
      | '.' :: d :: restFrac =>
        if d.isDigit then
          let fracDigits := (d :: restFrac).takeWhile Char.isDigit
          let afterFrac := (d :: restFrac).drop fracDigits.length
          let q : ℚ := (digitsToNat intDigits : ℚ) +
            (digitsToNat fracDigits : ℚ) / ((10 ^ fracDigits.length : Nat) : ℚ)
          do
            let ts ← tokenizeAux fuel afterFrac
            return Token.tNum q :: ts
        else do
          let ts ← tokenizeAux fuel afterInt
          return Token.tNum (digitsToNat intDigits : ℚ) :: ts
      | _ => do
        let ts ← tokenizeAux fuel afterInt
        return Token.tNum (digitsToNat intDigits : ℚ) :: ts
    else
      match c :: rest with
      | '=' :: '=' :: '=' :: r => do
        let ts ← tokenizeAux fuel r
        return Token.tOp .seq :: ts
      | '!' :: '=' :: '=' :: r => do
        let ts ← tokenizeAux fuel r
        return Token.tOp .sneq :: ts
      | '>' :: '=' :: r => do
        let ts ← tokenizeAux fuel r
        return Token.tOp .ge :: ts
      | '<' :: '=' :: r => do
        let ts ← tokenizeAux fuel r
        return Token.tOp .le :: ts
      | '!' :: '=' :: r => do
        let ts ← tokenizeAux fuel r
        return Token.tOp .lneq :: ts
      | '=' :: '=' :: r => do
        let ts ← tokenizeAux fuel r
        return Token.tOp .leq :: ts
      | '&' :: '&' :: r => do
        let ts ← tokenizeAux fuel r
        return Token.tAnd :: ts
      | '|' :: '|' :: r => do
        let ts ← tokenizeAux fuel r
        return Token.tOr :: ts
      | '>' :: r => do
        let ts ← tokenizeAux fuel r
        return Token.tOp .gt :: ts
      | '<' :: r => do
        let ts ← tokenizeAux fuel r
        return Token.tOp .lt :: ts
      | '!' :: r => do
        let ts ← tokenizeAux fuel r
        return Token.tNot :: ts
      | '(' :: r => do
        let ts ← tokenizeAux fuel r
        return Token.tLParen :: ts
      | ')' :: r => do
        let ts ← tokenizeAux fuel r
        return Token.tRParen :: ts
      | _ =>
        if isIdentStart c then
          let idChars := (c :: rest).takeWhile isIdentChar
          let after := (c :: rest).drop idChars.length
          let id := String.mk idChars
          let tok :=
            if id = "true" then Token.tBool true
            else if id = "false" then Token.tBool false
            else if id = "null" then Token.tNull
            else if id = "undefined" then Token.tNull
            else Token.tIdent id
          do
            let ts ← tokenizeAux fuel after
            return tok :: ts
        else .error ("Unexpected character " ++ String.mk [c])

def jsTrim (s : String) : String :=
  String.mk ((s.toList.dropWhile isJsSpaceChar).reverse.dropWhile isJsSpaceChar |>.reverse)

/-- `tokenize` from the source: trims the input, then scans tokens and
appends EOF; throws (`Except.error`) on an unexpected character or an
unterminated string literal. -/
def tokenize (input : String) : Except String (List Token) :=
  let cs := (jsTrim input).toList
  tokenizeAux (cs.length + 1) cs

abbrev Facts : Type := List (String × Value)

def factsLookup (facts : Facts) (key : String) : Value :=
  match facts.find? (fun kv => kv.1 = key) with
  | some kv => kv.2
  | none => Value.vUndef

/-- One step of dotted member access, `(val as Record)[part]`: on an object,
the named member or `undefined`; on any other value, `undefined`.  (Built-in
properties of primitives, such as `"abc".length`, are not modelled; no rule
condition under verification uses them.) -/
def memberAccess (v : Value) (part : String) : Value :=
  match v with
  | Value.vObj kvs =>
    (match kvs.find? (fun kv => kv.1 = part) with
     | some kv => kv.2
     | none => Value.vUndef)
  | _ => Value.vUndef

def splitCharAux (sep : Char) : List Char → List Char → List String
  | [], acc => [String.mk acc.reverse]
  | c :: rest, acc =>
    if c = sep then String.mk acc.reverse :: splitCharAux sep rest []
    else splitCharAux sep rest (c :: acc)

/-- `s.split(sep)` for a single-character separator (keeps empty segments,
as JavaScript does). -/
def jsSplit (sep : Char) (s : String) : List String :=
  splitCharAux sep s.toList []

/-- Dotted-path identifier resolution from `parsePrimary`: the head segment
is looked up in the facts; a `null` or `undefined` intermediate yields
`undefined`; further segments are member accesses.  (The `val == null`
guard in the source is loose equality, so it covers `undefined` too.) -/
def resolveIdent (name : String) (facts : Facts) : Value :=
  match jsSplit '.' name with
  | [] => Value.vUndef
  | head :: parts =>
    parts.foldl
      (fun val part =>
        if looseEq val Value.vNull then Value.vUndef else memberAccess val part)
      (factsLookup facts head)

/-- The comparison dispatch of `parseComparison` (the `switch` over the
comparison operator). -/
def applyCmpOp : CmpOp → Value → Value → Bool
  | .gt, l, r => jsGt l r
  | .ge, l, r => jsGe l r
  | .lt, l, r => jsLt l r
  | .le, l, r => jsLe l r
  | .seq, l, r => strictEq l r
  | .leq, l, r => looseEq l r
  | .sneq, l, r => !strictEq l r
  | .lneq, l, r => !looseEq l r

def peekTok (ts : List Token) (pos : Nat) : Token :=
  ts.getD pos Token.tEof

mutual

def parseOrE : Nat → List Token → Nat → Facts → Except String (Bool × Nat)
  | 0, _, _, _ => .error "fuel exhausted"
  | fuel + 1, ts, pos, facts => do
    let (left, p) ← parseAndE fuel ts pos facts
    parseOrLoop fuel ts left p facts

def parseOrLoop : Nat → List Token → Bool → Nat → Facts → Except String (Bool × Nat)
  | 0, _, _, _, _ => .error "fuel exhausted"
  | fuel + 1, ts, left, pos, facts =>
    if peekTok ts pos = Token.tOr then do
      let (right, p) ← parseAndE fuel ts (pos + 1) facts
      parseOrLoop fuel ts (left || right) p facts
    else .ok (left, pos)

def parseAndE : Nat → List Token → Nat → Facts → Except String (Bool × Nat)
  | 0, _, _, _ => .error "fuel exhausted"
  | fuel + 1, ts, pos, facts => do
    let (left, p) ← parseNotE fuel ts pos facts
    parseAndLoop fuel ts left p facts

def parseAndLoop : Nat → List Token → Bool → Nat → Facts → Except String (Bool × Nat)
  | 0, _, _, _, _ => .error "fuel exhausted"
  | fuel + 1, ts, left, pos, facts =>
    if peekTok ts pos = Token.tAnd then do
      let (right, p) ← parseNotE fuel ts (pos + 1) facts
      parseAndLoop fuel ts (left && right) p facts
    else .ok (left, pos)

def parseNotE : Nat → List Token → Nat → Facts → Except String (Bool × Nat)
  | 0, _, _, _ => .error "fuel exhausted"
  | fuel + 1, ts, pos, facts =>
    if peekTok ts pos = Token.tNot then do
      let (b, p) ← parseNotE fuel ts (pos + 1) facts
      .ok (!b, p)
    else parseComparisonE fuel ts pos facts

def parseComparisonE : Nat → List Token → Nat → Facts → Except String (Bool × Nat)
  | 0, _, _, _ => .error "fuel exhausted"
  | fuel + 1, ts, pos, facts => do
    let (left, p) ← parsePrimaryE fuel ts pos facts
    match peekTok ts p with
    | Token.tOp o => do
      let (right, p') ← parsePrimaryE fuel ts (p + 1) facts
      .ok (applyCmpOp o left right, p')
    | _ => .ok (truthy left, p)

def parsePrimaryE : Nat → List Token → Nat → Facts → Except String (Value × Nat)
  | 0, _, _, _ => .error "fuel exhausted"
  | fuel + 1, ts, pos, facts =>
    match peekTok ts pos with
    | Token.tLParen => do
      let (b, p) ← parseOrE fuel ts (pos + 1) facts
      if peekTok ts p = Token.tRParen then .ok (Value.vBool b, p + 1)
      else .error "Missing closing parenthesis"
    | Token.tNum q => .ok (Value.vNum q, pos + 1)
    | Token.tStr s => .ok (Value.vStr s, pos + 1)
    | Token.tBool b => .ok (Value.vBool b, pos + 1)
    | Token.tNull => .ok (Value.vNull, pos + 1)
    | Token.tIdent name => .ok (resolveIdent name facts, pos + 1)
    | _ => .error "Unexpected token type"

end

attribute [local semireducible] parseOrE parseOrLoop parseAndE parseAndLoop
  parseNotE parseComparisonE parsePrimaryE

/-- `ExpressionEvaluator.evaluate` before its catch-all: tokenize, parse and
evaluate, and reject trailing tokens. -/
def evalExpr (expression : String) (facts : Facts) : Except String Bool := do
  let ts ← tokenize expression
  let (b, p) ← parseOrE (10 * ts.length + 10) ts 0 facts
  if peekTok ts p = Token.tEof then .ok b
  else .error "Trailing tokens"

/-- `ExpressionEvaluator.evaluate`: never throws; any tokenizer or parser
error yields `false`. -/
def evaluate (expression : String) (facts : Facts) : Bool :=
  match evalExpr expression facts with
  | .ok b => b
  | .error _ => false

/-- `ExpressionEvaluator.compile` validates an expression at compile time by
tokenizing it once (the parser is not run); the returned predicate is
`evaluate` on the captured expression.  `compileOk e = true` means `compile`
returns without throwing. -/
def compileOk (expression : String) : Bool :=
  (tokenize expression).isOk

/-! ## RuleEngine (src/RuleEngine.ts, ExpressionEvaluator-backed revision) -/

inductive RuleAction where
  | APPROVED | REJECTED | REVIEW
  deriving DecidableEq

structure Rule where
  id : String
  name : String
  condition : String
  action : RuleAction
  reason : String
  priority : ℚ
  score : Option ℚ := none
  deriving DecidableEq

structure Decision where
  result : RuleAction
  matchedRule : Option Rule
  reason : String
  score : ℚ
  auditId : String
  deriving DecidableEq

namespace RuleEngine

/-- The compiled predicate of a rule: `ExpressionEvaluator.evaluate` on the
rule's condition (never throws — the `catch` in the source's `evaluate`
loop is unreachable with this evaluator). -/
def testRule (r : Rule) (facts : Facts) : Bool :=
  evaluate r.condition facts

/-- The comparator relation of `rules.sort((a, b) => a.priority - b.priority)`. -/
def priLe (a b : Rule) : Prop := a.priority ≤ b.priority

instance : DecidableRel priLe := fun a b => inferInstanceAs (Decidable (a.priority ≤ b.priority))

instance : IsTotal Rule priLe := ⟨fun a b => le_total a.priority b.priority⟩

instance : IsTrans Rule priLe := ⟨fun _ _ _ h1 h2 => le_trans h1 h2⟩

/-- `rules.sort((a, b) => a.priority - b.priority)`: ECMAScript's `sort` is a
stable sort, and a stable sort by a total preorder is a unique function on
lists, so stable insertion sort models it exactly. -/
def sortByPriority (rules : List Rule) : List Rule :=
  List.insertionSort priLe rules

/-- Default decision score per action: APPROVED 85, REJECTED 15, REVIEW 50. -/
def defaultScore : RuleAction → ℚ
  | .APPROVED => 85
  | .REJECTED => 15
  | .REVIEW => 50

/-- The no-match REVIEW decision returned when no rule's predicate is true. -/
def noMatchDecision (auditId : String) : Decision :=
  { result := .REVIEW
    matchedRule := none
    reason := "No matching rule found — manual review required"
    score := 50
    auditId := auditId }

/-- `RuleEngine.evaluate` on the loaded (priority-sorted) rule list: the
first rule in order whose predicate holds yields the decision; otherwise the
default REVIEW decision.  The fresh `crypto.randomUUID()` is the explicit
`auditId` argument. -/
def evaluate (compiled : List Rule) (facts : Facts) (auditId : String) : Decision :=
  match compiled.find? (fun r => testRule r facts) with
  | some rule =>
    { result := rule.action
      matchedRule := some rule
      reason := rule.reason
      score := rule.score.getD (defaultScore rule.action)
      auditId := auditId }
  | none => noMatchDecision auditId

/-- `RuleEngine.loadRules`: sorts the rules by ascending priority, then
compiles each condition; compilation (tokenization) failure of any condition
propagates as an error. -/
def loadRules (rules : List Rule) : Except String (List Rule) :=
  let sorted := sortByPriority rules
  match sorted.find? (fun r => !compileOk r.condition) with
  | some r => .error ("syntax error in condition: " ++ r.condition)
  | none => .ok sorted

/-- The contents of the caller's array after `loadRules` returns:
`Array.prototype.sort` sorts in place, so the caller's array has been
permuted into ascending-priority order (the `.map` that follows builds a new
array and does not restore the original order). -/
def loadRulesCallerArray (rules : List Rule) : List Rule :=
  sortByPriority rules

end RuleEngine

/-! ## JSON serialisation

`JSON.stringify` as used by `AuditLogger.computeHash`: members are emitted
in insertion order, `undefined`-valued members are omitted, strings are
JSON-escaped, and numbers are printed in JavaScript's shortest decimal form
(for the exact rationals of this model: the terminating decimal expansion
with no trailing zeros, which agrees with JavaScript for every value
produced by the embedded code).  For comparison, `canonicalStringify` below
follows the specification's canonical serialisation, which differs only in
sorting the member names at every nesting level. -/

def natDigitsAux : Nat → Nat → List Char
  | 0, _ => []
  | _ + 1, 0 => []
  | fuel + 1, n => natDigitsAux fuel (n / 10) ++ [Char.ofNat (48 + n % 10)]

def natToString (n : Nat) : String :=
  if n = 0 then "0" else String.mk (natDigitsAux (n + 1) n)

/-- Decimal rendering of a rational without trailing zeros.  Every
JavaScript number is a dyadic rational, so the terminating expansion always
exists; the search bound 64 covers far more fractional digits than a double
can carry, and the slash fallback is unreachable for values originating in
the embedded code. -/
def qToString (q : ℚ) : String :=
  let n := q.num.natAbs
  let d := q.den
  let sign := if q.num < 0 then "-" else ""
  if d = 1 then sign ++ natToString n
  else
    match (List.range 65).find? (fun k => (n * 10 ^ k) % d = 0) with
    | some k =>
      let m := n * 10 ^ k / d
      let s := natToString m
      let padded := String.mk (List.replicate (k + 1 - s.length) '0') ++ s
      let cs := padded.toList
      sign ++ String.mk (cs.take (cs.length - k)) ++ "." ++
        String.mk (cs.drop (cs.length - k))
    | none => sign ++ natToString n ++ "/" ++ natToString d

def hexLowNibble (n : Nat) : Char :=
  Sha.hexDigits.getD (n % 16) '0'

/-- JSON string escaping as performed by `JSON.stringify`. -/
def jsonEscapeChar (c : Char) : List Char :=
  if c = '"' then ['\\', '"']
  else if c = '\\' then ['\\', '\\']
  else if c = '\n' then ['\\', 'n']
  else if c = '\r' then ['\\', 'r']
  else if c = '\t' then ['\\', 't']
  else if c = Char.ofNat 8 then ['\\', 'b']
  else if c = Char.ofNat 12 then ['\\', 'f']
  else if c.toNat < 32 then
    ['\\', 'u', '0', '0', hexLowNibble (c.toNat / 16), hexLowNibble c.toNat]
  else [c]

def jsonQuote (s : String) : String :=
  "\"" ++ String.mk (s.toList.flatMap jsonEscapeChar) ++ "\""

def joinComma : List String → String
  | [] => ""
  | [s] => s
  | s :: rest => s ++ "," ++ joinComma rest

mutual

/-- `JSON.stringify`: `none` is the `undefined` result (a bare `undefined`
does not serialise); object members with `undefined` values are dropped;
member order is insertion order. -/
def stringifyVal : Value → Option String
  | Value.vUndef => none
  | Value.vNull => some "null"
  | Value.vBool b => some (cond b "true" "false")
  | Value.vNum q => some (qToString q)
  | Value.vStr s => some (jsonQuote s)
  | Value.vObj kvs => some ("\x7b" ++ joinComma (memberStrings kvs) ++ "\x7d")

def memberStrings : List (String × Value) → List String
  | [] => []
  | (k, v) :: rest =>
    match stringifyVal v with
    | none => memberStrings rest
    | some sv => (jsonQuote k ++ ":" ++ sv) :: memberStrings rest

end

/-- `JSON.stringify` result coerced into the string concatenation of
`computeHash`.  A top-level `undefined` concatenates as the text
`"undefined"` in JavaScript; every hashed pre-image is an object, so this
branch is never taken. -/
def jsStringify (v : Value) : String :=
  (stringifyVal v).getD "undefined"

def insertByKey (x : String × String) : List (String × String) → List (String × String)
  | [] => [x]
  | y :: ys => if strLt y.1 x.1 then y :: insertByKey x ys else x :: y :: ys

/-- Ascending lexicographic sort of rendered members by their key. -/
def sortMembersByKey (kvs : List (String × String)) : List (String × String) :=
  kvs.foldr insertByKey []

mutual

/-- Modelled from the spec (§6), for comparison with `stringifyVal`: the
canonical serialisation used by the specification's hash invariant — object
keys sorted lexicographically at every nesting level, numbers without
trailing zeros, strings JSON-escaped, no insignificant whitespace.
(Members are rendered first and the rendered members sorted by key, which
is the same as sorting, then rendering.) -/
def canonicalVal : Value → Option String
  | Value.vUndef => none
  | Value.vNull => some "null"
  | Value.vBool b => some (cond b "true" "false")
  | Value.vNum q => some (qToString q)
  | Value.vStr s => some (jsonQuote s)
  | Value.vObj kvs =>
    some ("\x7b" ++
      joinComma ((sortMembersByKey (canonicalMembers kvs)).map (fun kv => kv.2)) ++ "\x7d")

def canonicalMembers : List (String × Value) → List (String × String)
  | [] => []
  | (k, v) :: rest =>
    match canonicalVal v with
    | none => canonicalMembers rest
    | some sv => (k, jsonQuote k ++ ":" ++ sv) :: canonicalMembers rest

end

/-- Modelled from the spec (§6): canonical serialisation at the top level. -/
def canonicalStringify (v : Value) : String :=
  (canonicalVal v).getD "undefined"

/-! ## AuditLogger (src/src/AuditLogger.ts, second revision)

File persistence is outside the model: the journal write is fire-and-forget
(`catch { /* silent */ }`) and no claim under verification concerns the
on-disk journal.  The in-memory entry list and hash-chain pointer are the
logger state. -/

def actionToString : RuleAction → String
  | .APPROVED => "APPROVED"
  | .REJECTED => "REJECTED"
  | .REVIEW => "REVIEW"

/-- The JSON value of a `Rule` as `JSON.stringify` sees it: members in the
declaration order of the `Rule` interface; an absent optional `score` has no
member. -/
def jsonOfRule (r : Rule) : Value :=
  Value.vObj
    ([("id", Value.vStr r.id), ("name", Value.vStr r.name),
      ("condition", Value.vStr r.condition),
      ("action", Value.vStr (actionToString r.action)),
      ("reason", Value.vStr r.reason), ("priority", Value.vNum r.priority)] ++
      (match r.score with
       | some s => [("score", Value.vNum s)]
       | none => []))

/-- The JSON value of a `Decision`: members in the construction order of
`RuleEngine.evaluate`'s object literal. -/
def jsonOfDecision (d : Decision) : Value :=
  Value.vObj
    [("result", Value.vStr (actionToString d.result)),
     ("matchedRule", match d.matchedRule with
       | some r => jsonOfRule r
       | none => Value.vNull),
     ("reason", Value.vStr d.reason),
     ("score", Value.vNum d.score),
     ("auditId", Value.vStr d.auditId)]

structure AuditEntry where
  id : String
  timestamp : String
  input : Facts
  output : Decision
  rule : Option Rule
  previousHash : String
  hash : String

/-- `'0'.repeat(64)`, the genesis hash. -/
def genesisHash : String :=
  String.mk (List.replicate 64 '0')

structure LoggerState where
  entries : List AuditEntry := []
  previousHash : String := genesisHash

namespace AuditLogger

/-- The JSON value of the `partial` pre-image built by `log`: members in
insertion order `id, timestamp, input, output, rule, previousHash`. -/
def preImageJson (id timestamp : String) (input : Facts) (output : Decision)
    (rule : Option Rule) (previousHash : String) : Value :=
  Value.vObj
    [("id", Value.vStr id), ("timestamp", Value.vStr timestamp),
     ("input", Value.vObj input), ("output", jsonOfDecision output),
     ("rule", match rule with
       | some r => jsonOfRule r
       | none => Value.vNull),
     ("previousHash", Value.vStr previousHash)]

/-- The entry as serialised without its `hash` field (the pre-image of the
entry's hash). -/
def entryNoHashJson (e : AuditEntry) : Value :=
  preImageJson e.id e.timestamp e.input e.output e.rule e.previousHash

/-- `AuditLogger.computeHash`: SHA-256 (lowercase hex) of the previous hash
concatenated with `JSON.stringify` of the pre-image. -/
def computeHash (previousHash : String) (pre : Value) : String :=
  Sha.sha256Hex (previousHash ++ jsStringify pre)

/-- `AuditLogger.log`: builds the pre-image from the decision and the input
(`id` falls back to the fresh identifier only when `decision.auditId` is the
empty string, the only falsy string), hashes it against the chain pointer,
appends the completed entry and advances the pointer.  `nowIso` stands for
`new Date().toISOString()` and `freshId` for `crypto.randomUUID()`. -/
def log (st : LoggerState) (decision : Decision) (input : Facts)
    (nowIso freshId : String) : AuditEntry × LoggerState :=
  let id := if decision.auditId = "" then freshId else decision.auditId
  let pre := preImageJson id nowIso input decision decision.matchedRule st.previousHash
  let hash := computeHash st.previousHash pre
  let entry : AuditEntry :=
    { id := id, timestamp := nowIso, input := input, output := decision
      rule := decision.matchedRule, previousHash := st.previousHash, hash := hash }
  (entry, { entries := st.entries ++ [entry], previousHash := hash })

end AuditLogger

/-! ## MizanAgent (src/MizanAgent.ts)

`run` and `runStream` are embedded with explicit state: the engine's loaded
rules, the logger state, and the effect inputs (fresh `randomUUID`s and
timestamps) are parameters; the LM adapter is a function that may fail
(`think`, and optionally `completeStream`); callback activity is recorded as
an ordered event list (`lmInvoked` when the adapter is entered, `chunk` for
each `onChunk` call, `logged` for each `AuditLogger.log` call, in program
order).  A thrown LM error propagates as `Except.error`; the fields of the
returned record other than `result` expose the side effects that have (or
have not) happened by then. -/

inductive AgentEvent where
  | lmInvoked : AgentEvent
  | chunk : String → AgentEvent
  | logged : AuditEntry → AgentEvent

inductive EventKind where
  | lm | chunk | logged
  deriving DecidableEq

def AgentEvent.kind : AgentEvent → EventKind
  | .lmInvoked => .lm
  | .chunk _ => .chunk
  | .logged _ => .logged

structure AgentResponse where
  output : String
  decisions : List Decision
  auditTrail : List AuditEntry

structure AgentCtx where
  compiled : List Rule
  think : Facts → Except String String
  completeStream? : Option (String → Except String (List String)) := none

/-- The fresh identifiers and timestamps consumed by one pipeline
invocation, in the order the source draws them. -/
structure AgentEff where
  preAuditId : String
  postAuditId : String
  preLogTs : String
  postLogTs : String
  preLogId : String
  postLogId : String

/-- `{ ...input, llmOutput: output }`: object spread keeps an existing key at
its original position with the new value, otherwise appends the key. -/
def setFact (facts : Facts) (key : String) (v : Value) : Facts :=
  if (facts.find? (fun kv => kv.1 = key)).isSome then
    facts.map (fun kv => if kv.1 = key then (key, v) else kv)
  else facts ++ [(key, v)]

structure RunResult where
  result : Except String AgentResponse
  logger : LoggerState
  events : List AgentEvent

namespace MizanAgent

/-- `MizanAgent.run`: pre-check, pre-entry append, REJECTED short-circuit,
LM call, post-check, post-entry append. -/
def run (ctx : AgentCtx) (st : LoggerState) (input : Facts) (eff : AgentEff) : RunResult :=
  let pre := RuleEngine.evaluate ctx.compiled input eff.preAuditId
  let (preEntry, st1) := AuditLogger.log st pre input eff.preLogTs eff.preLogId
  if pre.result = .REJECTED then
    { result := .ok
        { output := "Blocked by rule: " ++ pre.reason
          decisions := [pre]
          auditTrail := [preEntry] }
      logger := st1
      events := [.logged preEntry] }
  else
    match ctx.think input with
    | .error e =>
      { result := .error e, logger := st1, events := [.logged preEntry, .lmInvoked] }
    | .ok output =>
      let postFacts := setFact input "llmOutput" (Value.vStr output)
      let post := RuleEngine.evaluate ctx.compiled postFacts eff.postAuditId
      let (postEntry, st2) := AuditLogger.log st1 post postFacts eff.postLogTs eff.postLogId
      { result := .ok
          { output := output
            decisions := [pre, post]
            auditTrail := [preEntry, postEntry] }
        logger := st2
        events := [.logged preEntry, .lmInvoked, .logged postEntry] }

structure StreamResult where
  result : Except String Unit
  chunks : List String
  onDoneResponse : Option AgentResponse
  logger : LoggerState
  events : List AgentEvent

/-- `MizanAgent.runStream`: the REJECTED branch emits the block message as a
single chunk and, when `onDone` is supplied, logs the pre-entry while
building the response passed to it.  Past the pre-check the LM is invoked
first (native `completeStream` when the adapter has one, otherwise `think`
with whitespace-split simulated chunks); both audit-log appends happen only
inside the construction of the `onDone` response, after the LM call has
returned. -/
def runStream (ctx : AgentCtx) (st : LoggerState) (input : Facts) (eff : AgentEff)
    (onDonePresent : Bool) : StreamResult :=
  let pre := RuleEngine.evaluate ctx.compiled input eff.preAuditId
  if pre.result = .REJECTED then
    let msg := "Blocked by rule: " ++ pre.reason
    if onDonePresent then
      let (preEntry, st1) := AuditLogger.log st pre input eff.preLogTs eff.preLogId
      { result := .ok ()
        chunks := [msg]
        onDoneResponse := some
          { output := msg, decisions := [pre], auditTrail := [preEntry] }
        logger := st1
        events := [.chunk msg, .logged preEntry] }
    else
      { result := .ok (), chunks := [msg], onDoneResponse := none
        logger := st, events := [.chunk msg] }
  else
    match ctx.completeStream? with
    | some completeStream =>
      match completeStream (jsStringify (Value.vObj input)) with
      | .error e =>
        { result := .error e, chunks := [], onDoneResponse := none
          logger := st, events := [.lmInvoked] }
      | .ok chunks =>
        let output := String.join chunks
        let postFacts := setFact input "llmOutput" (Value.vStr output)
        let post := RuleEngine.evaluate ctx.compiled postFacts eff.postAuditId
        if onDonePresent then
          let (preEntry, st1) := AuditLogger.log st pre input eff.preLogTs eff.preLogId
          let (postEntry, st2) := AuditLogger.log st1 post postFacts eff.postLogTs eff.postLogId
          { result := .ok ()
            chunks := chunks
            onDoneResponse := some
              { output := output, decisions := [pre, post]
                auditTrail := [preEntry, postEntry] }
            logger := st2
            events := .lmInvoked :: chunks.map .chunk ++ [.logged preEntry, .logged postEntry] }
        else
          { result := .ok (), chunks := chunks, onDoneResponse := none
            logger := st, events := .lmInvoked :: chunks.map .chunk }
    | none =>
      match ctx.think input with
      | .error e =>
        { result := .error e, chunks := [], onDoneResponse := none
          logger := st, events := [.lmInvoked] }
      | .ok output =>
        let chunks := (jsSplit ' ' output).map (fun w => w ++ " ")
        let postFacts := setFact input "llmOutput" (Value.vStr output)
        let post := RuleEngine.evaluate ctx.compiled postFacts eff.postAuditId
        if onDonePresent then
          let (preEntry, st1) := AuditLogger.log st pre input eff.preLogTs eff.preLogId
          let (postEntry, st2) := AuditLogger.log st1 post postFacts eff.postLogTs eff.postLogId
          { result := .ok ()
            chunks := chunks
            onDoneResponse := some
              { output := output, decisions := [pre, post]
                auditTrail := [preEntry, postEntry] }
            logger := st2
            events := .lmInvoked :: chunks.map .chunk ++ [.logged preEntry, .logged postEntry] }
        else
          { result := .ok (), chunks := chunks, onDoneResponse := none
            logger := st, events := .lmInvoked :: chunks.map .chunk }

end MizanAgent

/-! ## UAEComplianceLayer (src/src/compliance/uae, DubaiAILawChecker revision)

The framework checkers inspect the input, the decision and the audit entry
through regular-expression and substring heuristics.  Those predicates do
not bear on any claim under verification, so each checker is embedded as a
function of the boolean findings it computes, while the part the claims are
about — which checks are emitted for which framework, each check's article,
its status mapping and its `passed` flag, and the aggregation into a report —
is translated from the source.  Report fields never examined by a claim
(`reportId`, `timestamp`, `summary`, `summaryAr`, `auditHash`) are omitted. -/

inductive Framework where
  | PDPL | UAE_AI_ETHICS | NESA | DUBAI_AI_LAW | ADGM
  deriving DecidableEq

inductive ComplianceStatus where
  | COMPLIANT | NON_COMPLIANT | REVIEW_REQUIRED
  deriving DecidableEq

structure ComplianceCheck where
  framework : Framework
  article : String
  status : ComplianceStatus
  passed : Bool
  deriving DecidableEq

namespace PDPLChecker

/-- `PDPLChecker.check`: Art. 4 purpose (NON_COMPLIANT on fail), Art. 10
minimisation (REVIEW_REQUIRED on fail), Art. 14 residency (NON_COMPLIANT),
Art. 6 consent (NON_COMPLIANT), in push order. -/
def check (hasPurpose minimalPII residencyPassed consentPassed : Bool) :
    List ComplianceCheck :=
  [{ framework := .PDPL, article := "Art. 4"
     status := if hasPurpose then .COMPLIANT else .NON_COMPLIANT
     passed := hasPurpose },
   { framework := .PDPL, article := "Art. 10"
     status := if minimalPII then .COMPLIANT else .REVIEW_REQUIRED
     passed := minimalPII },
   { framework := .PDPL, article := "Art. 14"
     status := if residencyPassed then .COMPLIANT else .NON_COMPLIANT
     passed := residencyPassed },
   { framework := .PDPL, article := "Art. 6"
     status := if consentPassed then .COMPLIANT else .NON_COMPLIANT
     passed := consentPassed }]

/-- `PDPLChecker.checkExtended`: Art. 3 subject rights (REVIEW_REQUIRED on
fail), Art. 16 sensitive data (NON_COMPLIANT), Art. 18 breach notification
(REVIEW_REQUIRED). -/
def checkExtended (hasSubjectRights sensitiveOk hasBreachPlan : Bool) :
    List ComplianceCheck :=
  [{ framework := .PDPL, article := "Art. 3 — Data Subject Rights"
     status := if hasSubjectRights then .COMPLIANT else .REVIEW_REQUIRED
     passed := hasSubjectRights },
   { framework := .PDPL, article := "Art. 16 — Sensitive Personal Data"
     status := if sensitiveOk then .COMPLIANT else .NON_COMPLIANT
     passed := sensitiveOk },
   { framework := .PDPL, article := "Art. 18 — Breach Notification"
     status := if hasBreachPlan then .COMPLIANT else .REVIEW_REQUIRED
     passed := hasBreachPlan }]

end PDPLChecker

namespace AIEthicsGuardrails

/-- `AIEthicsGuardrails.evaluate`: the six principles in push order, with the
source's fail statuses (Inclusiveness REVIEW_REQUIRED, Reliability
NON_COMPLIANT, Transparency REVIEW_REQUIRED, Security NON_COMPLIANT,
Accountability REVIEW_REQUIRED, Privacy NON_COMPLIANT). -/
def evaluate (inclusivenessPassed reliabilityPassed transparencyPassed
    securityPassed accountabilityPassed privacyPassed : Bool) :
    List ComplianceCheck :=
  [{ framework := .UAE_AI_ETHICS, article := "Inclusiveness Principle"
     status := if inclusivenessPassed then .COMPLIANT else .REVIEW_REQUIRED
     passed := inclusivenessPassed },
   { framework := .UAE_AI_ETHICS, article := "Reliability Principle"
     status := if reliabilityPassed then .COMPLIANT else .NON_COMPLIANT
     passed := reliabilityPassed },
   { framework := .UAE_AI_ETHICS, article := "Transparency Principle"
     status := if transparencyPassed then .COMPLIANT else .REVIEW_REQUIRED
     passed := transparencyPassed },
   { framework := .UAE_AI_ETHICS, article := "Security Principle"
     status := if securityPassed then .COMPLIANT else .NON_COMPLIANT
     passed := securityPassed },
   { framework := .UAE_AI_ETHICS, article := "Accountability Principle"
     status := if accountabilityPassed then .COMPLIANT else .REVIEW_REQUIRED
     passed := accountabilityPassed },
   { framework := .UAE_AI_ETHICS, article := "Privacy Principle"
     status := if privacyPassed then .COMPLIANT else .NON_COMPLIANT
     passed := privacyPassed }]

end AIEthicsGuardrails

namespace NESAControls

/-- `NESAControls.assess`: five controls in push order (AU-01 NON_COMPLIANT
on fail, IR-02 REVIEW_REQUIRED, DS-01 REVIEW_REQUIRED, AC-01 NON_COMPLIANT,
CR-01 NON_COMPLIANT). -/
def assess (hasAuditHash incidentOk dataClassOk hasAccessControl
    encryptionPassed : Bool) : List ComplianceCheck :=
  [{ framework := .NESA, article := "Audit Control AU-01"
     status := if hasAuditHash then .COMPLIANT else .NON_COMPLIANT
     passed := hasAuditHash },
   { framework := .NESA, article := "Incident Response IR-02"
     status := if incidentOk then .COMPLIANT else .REVIEW_REQUIRED
     passed := incidentOk },
   { framework := .NESA, article := "Data Security DS-01"
     status := if dataClassOk then .COMPLIANT else .REVIEW_REQUIRED
     passed := dataClassOk },
   { framework := .NESA, article := "Access Control AC-01"
     status := if hasAccessControl then .COMPLIANT else .NON_COMPLIANT
     passed := hasAccessControl },
   { framework := .NESA, article := "Cryptography CR-01"
     status := if encryptionPassed then .COMPLIANT else .NON_COMPLIANT
     passed := encryptionPassed }]

end NESAControls

namespace DubaiAILawChecker

/-- `DubaiAILawChecker.check`: five articles in push order (Art. 3
NON_COMPLIANT on fail, Art. 5 REVIEW_REQUIRED, Art. 8 REVIEW_REQUIRED,
Art. 10 NON_COMPLIANT, Art. 12 REVIEW_REQUIRED). -/
def check (prohibitedOk registrationPassed hasDisclosure oversightPassed
    hasDataGovernance : Bool) : List ComplianceCheck :=
  [{ framework := .DUBAI_AI_LAW, article := "Art. 3 — Prohibited Uses"
     status := if prohibitedOk then .COMPLIANT else .NON_COMPLIANT
     passed := prohibitedOk },
   { framework := .DUBAI_AI_LAW, article := "Art. 5 — AI Registration"
     status := if registrationPassed then .COMPLIANT else .REVIEW_REQUIRED
     passed := registrationPassed },
   { framework := .DUBAI_AI_LAW, article := "Art. 8 — Transparency Disclosure"
     status := if hasDisclosure then .COMPLIANT else .REVIEW_REQUIRED
     passed := hasDisclosure },
   { framework := .DUBAI_AI_LAW, article := "Art. 10 — Human Oversight"
     status := if oversightPassed then .COMPLIANT else .NON_COMPLIANT
     passed := oversightPassed },
   { framework := .DUBAI_AI_LAW, article := "Art. 12 — Data Governance"
     status := if hasDataGovernance then .COMPLIANT else .REVIEW_REQUIRED
     passed := hasDataGovernance }]

end DubaiAILawChecker

/-- The findings of the framework checkers on one evaluation (the boolean
results of their pattern-matching heuristics), abstracted as inputs. -/
structure CheckerFindings where
  hasPurpose : Bool
  minimalPII : Bool
  residencyPassed : Bool
  consentPassed : Bool
  hasSubjectRights : Bool
  sensitiveOk : Bool
  hasBreachPlan : Bool
  inclusivenessPassed : Bool
  reliabilityPassed : Bool
  transparencyPassed : Bool
  securityPassed : Bool
  accountabilityPassed : Bool
  privacyPassed : Bool
  hasAuditHash : Bool
  incidentOk : Bool
  dataClassOk : Bool
  hasAccessControl : Bool
  encryptionPassed : Bool
  prohibitedOk : Bool
  registrationPassed : Bool
  hasDisclosure : Bool
  oversightPassed : Bool
  hasDataGovernance : Bool

structure UAEComplianceReport where
  overallStatus : ComplianceStatus
  frameworks : List Framework
  checks : List ComplianceCheck
  score : Nat

namespace UAEComplianceLayer

/-- The fixed check pushed by `evaluate` when the ADGM framework is
configured. -/
def adgmCheck : ComplianceCheck :=
  { framework := .ADGM, article := "Data Protection Regulations 2021"
    status := .REVIEW_REQUIRED, passed := false }

/-- `UAEComplianceLayer.deriveOverallStatus`: NON_COMPLIANT if any check is,
else REVIEW_REQUIRED if any check is, else COMPLIANT. -/
def deriveOverallStatus (checks : List ComplianceCheck) : ComplianceStatus :=
  if checks.any (fun c => c.status == .NON_COMPLIANT) then .NON_COMPLIANT
  else if checks.any (fun c => c.status == .REVIEW_REQUIRED) then .REVIEW_REQUIRED
  else .COMPLIANT

/-- `Math.round((passedCount / total) * 100)` for naturals `p ≤ n`, `n > 0`:
rounding half away from zero of the exact ratio, `⌊100p/n + 1/2⌋ =
(200p + n) / (2n)` in natural division. -/
def roundedPercent (p n : Nat) : Nat :=
  (200 * p + n) / (2 * n)

/-- `UAEComplianceLayer.generateReport`: the score is the rounded percentage
of passed checks (100 when there are no checks), the overall status the
derived precedence. -/
def generateReport (checks : List ComplianceCheck) (frameworks : List Framework) :
    UAEComplianceReport :=
  let score :=
    if checks.length = 0 then 100
    else roundedPercent (checks.countP (fun c => c.passed)) checks.length
  { overallStatus := deriveOverallStatus checks
    frameworks := frameworks
    checks := checks
    score := score }

/-- The check list built by `UAEComplianceLayer.evaluate` (this revision
instantiates `DubaiAILawChecker` and the extended PDPL checks): one block per
configured framework, in source order, closing with the fixed ADGM check. -/
def collectChecks (frameworks : List Framework) (f : CheckerFindings) :
    List ComplianceCheck :=
  (if frameworks.contains .PDPL then
    PDPLChecker.check f.hasPurpose f.minimalPII f.residencyPassed f.consentPassed ++
    PDPLChecker.checkExtended f.hasSubjectRights f.sensitiveOk f.hasBreachPlan
   else []) ++
  (if frameworks.contains .UAE_AI_ETHICS then
    AIEthicsGuardrails.evaluate f.inclusivenessPassed f.reliabilityPassed
      f.transparencyPassed f.securityPassed f.accountabilityPassed f.privacyPassed
   else []) ++
  (if frameworks.contains .NESA then
    NESAControls.assess f.hasAuditHash f.incidentOk f.dataClassOk
      f.hasAccessControl f.encryptionPassed
   else []) ++
  (if frameworks.contains .DUBAI_AI_LAW then
    DubaiAILawChecker.check f.prohibitedOk f.registrationPassed f.hasDisclosure
      f.oversightPassed f.hasDataGovernance
   else []) ++
  (if frameworks.contains .ADGM then [adgmCheck] else [])

/-- `UAEComplianceLayer.evaluate`: collect the configured frameworks' checks
and aggregate them into a report (`activeFrameworks` is the configured list
with duplicates removed, as `[...new Set(frameworks)]`). -/
def evaluate (frameworks : List Framework) (f : CheckerFindings) : UAEComplianceReport :=
  generateReport (collectChecks frameworks f) frameworks.eraseDups

end UAEComplianceLayer

/-- The selector the specification describes: among the rules whose
predicate holds, the one with the lowest numeric priority, ties resolved in
favour of the earliest in insertion order. -/
def RuleEngine.lowestPriorityMatch (p : Rule → Bool) : List Rule → Option Rule
  | [] => none
  | r :: rs =>
    if p r then
      match RuleEngine.lowestPriorityMatch p rs with
      | some s => if s.priority < r.priority then some s else some r
      | none => some r
    else RuleEngine.lowestPriorityMatch p rs

/-- Example rules witnessing that sorting visibly reorders a caller array
(the earlier rule in insertion order has the larger priority). -/
def exRuleEarly : Rule :=
  { id := "R1", name := "first", condition := "true", action := .APPROVED
    reason := "ok", priority := 2, score := none }

def exRuleLate : Rule :=
  { id := "R2", name := "second", condition := "true", action := .REJECTED
    reason := "no", priority := 1, score := none }

/-- A single rule whose condition is the literal `true` and whose action is
REJECTED, and an adapter context around it whose `think` records nothing. -/
def rejectingRule : Rule :=
  { id := "R0", name := "block all", condition := "true", action := .REJECTED
    reason := "blocked by policy", priority := 1, score := none }

def rejectingCtx : AgentCtx :=
  { compiled := [rejectingRule], think := fun _ => .ok "ignored" }

def exEff : AgentEff :=
  { preAuditId := "u1", postAuditId := "u2", preLogTs := "t1", postLogTs := "t2"
    preLogId := "f1", postLogId := "f2" }

/-- A context that proceeds past the pre-check (no rules loaded) with a
successful two-word LM reply, and one whose LM call fails. -/
def passingCtx : AgentCtx :=
  { compiled := [], think := fun _ => .ok "a b" }

def failingCtx : AgentCtx :=
  { compiled := [], think := fun _ => .error "boom" }

/-- Contexts exercising the native `completeStream` branch: one streams two
chunks, one fails. -/
def streamingCtx : AgentCtx :=
  { compiled := [], think := fun _ => .ok "unused"
    completeStream? := some (fun _ => .ok ["x ", "y "]) }

def streamFailingCtx : AgentCtx :=
  { compiled := [], think := fun _ => .ok "unused"
    completeStream? := some (fun _ => .error "neterr") }

/-- Recogniser for string values (after `ToPrimitive`), used to state the
both-operands-are-strings side condition of the relational operators. -/
def isStrVal : Value → Bool
  | Value.vStr _ => true
  | _ => false

/-- A rule whose condition tokenizes but cannot be parsed by the expression
grammar. -/
def unparsableRule : Rule :=
  { id := "B", name := "bad", condition := ")(", action := .REVIEW
    reason := "never", priority := 1, score := none }

/-- A small concrete decision for exercising the audit logger. -/
def exDecision : Decision :=
  { result := .REVIEW, matchedRule := none, reason := "r", score := 50, auditId := "a" }

/-! ## Theorems -/

namespace RuleEngine

theorem lowestPriorityMatch_eq_none_iff (p : Rule → Bool) (rules : List Rule) :
    lowestPriorityMatch p rules = none ↔ ∀ r ∈ rules, p r = false := by
  induction rules with
  | nil => simp [lowestPriorityMatch]
  | cons r rs ih =>
    cases hp : p r with
    | true =>
      simp only [lowestPriorityMatch, hp, if_true]
      constructor
      · intro h
        cases hlp : lowestPriorityMatch p rs with
        | some s =>
          rw [hlp] at h
          by_cases hlt : s.priority < r.priority <;> simp [hlt] at h
        | none => rw [hlp] at h; simp at h
      · intro h
        have := h r (List.mem_cons_self r rs)
        rw [hp] at this
        exact absurd this (by simp)
    | false =>
      have hstep : lowestPriorityMatch p (r :: rs) = lowestPriorityMatch p rs := by
        simp [lowestPriorityMatch, hp]
      rw [hstep, ih]
      constructor
      · intro h s hs
        rcases List.mem_cons.mp hs with rfl | hmem
        · exact hp
        · exact h s hmem
      · intro h s hs
        exact h s (List.mem_cons_of_mem r hs)

theorem priLe_of_mem_sorted {y s : Rule} {ys : List Rule}
    (hs : List.Sorted priLe (y :: ys)) (hmem : s ∈ y :: ys) : priLe y s := by
  rcases List.mem_cons.mp hmem with rfl | hmem
  · exact le_refl s.priority
  · exact List.rel_of_sorted_cons hs s hmem

theorem find?_orderedInsert (p : Rule → Bool) (x : Rule) (l : List Rule)
    (hs : List.Sorted priLe l) :
    (List.orderedInsert priLe x l).find? p =
      (if p x then
        match l.find? p with
        | some s => if s.priority < x.priority then some s else some x
        | none => some x
      else l.find? p) := by
  induction l with
  | nil =>
    cases hp : p x with
    | true =>
      rw [show List.orderedInsert priLe x [] = [x] from rfl,
        List.find?_cons_of_pos _ (by simp [hp]), if_pos (by simp [hp]),
        List.find?_nil]
    | false =>
      rw [show List.orderedInsert priLe x [] = [x] from rfl,
        List.find?_cons_of_neg _ (by simp [hp]), if_neg (by simp [hp])]
  | cons y ys ih =>
    by_cases hle : priLe x y
    · rw [List.orderedInsert, if_pos hle]
      cases hp : p x with
      | false =>
        rw [List.find?_cons_of_neg _ (by simp [hp]), if_neg (by simp [hp])]
      | true =>
        rw [List.find?_cons_of_pos _ (by simp [hp]), if_pos (by simp [hp])]
        cases hf : (y :: ys).find? p with
        | none => rfl
        | some s =>
          have hmem : s ∈ y :: ys := List.mem_of_find?_eq_some hf
          have hxs : x.priority ≤ s.priority := le_trans hle (priLe_of_mem_sorted hs hmem)
          simp [not_lt.mpr hxs]
    · rw [List.orderedInsert, if_neg hle]
      have hys : List.Sorted priLe ys := List.Sorted.of_cons hs
      cases hpy : p y with
      | true =>
        rw [List.find?_cons_of_pos _ hpy]
        cases hp : p x with
        | false =>
          rw [if_neg (by simp [hp]), List.find?_cons_of_pos _ hpy]
        | true =>
          rw [if_pos (by simp [hp]), List.find?_cons_of_pos _ hpy]
          have hyx : y.priority < x.priority := lt_of_not_le hle
          simp [hyx]
      | false =>
        rw [List.find?_cons_of_neg _ (by simp [hpy]), ih hys,
          List.find?_cons_of_neg _ (by simp [hpy])]

theorem find?_sortByPriority (p : Rule → Bool) (rules : List Rule) :
    (sortByPriority rules).find? p = lowestPriorityMatch p rules := by
  induction rules with
  | nil => rfl
  | cons r rs ih =>
    have hs : List.Sorted priLe (List.insertionSort priLe rs) :=
      List.sorted_insertionSort priLe rs
    rw [sortByPriority, List.insertionSort]
    rw [find?_orderedInsert p r (List.insertionSort priLe rs) hs]
    rw [show List.insertionSort priLe rs = sortByPriority rs from rfl, ih]
    rfl

end RuleEngine

/-- C3: for every loaded rule set and facts mapping, `RuleEngine.evaluate`
returns the Decision built from the matching rule of lowest numeric priority
(ties resolved by insertion order, as captured by `lowestPriorityMatch`),
with score `rule.score` when present and otherwise the action default
(APPROVED 85, REJECTED 15, REVIEW 50); and when no rule's predicate returns
true it returns the default REVIEW Decision with `matchedRule = null`,
reason "No matching rule found — manual review required" and score 50. -/
theorem c3_rule_engine_priority (rules : List Rule) (facts : Facts) (auditId : String) :
    (RuleEngine.lowestPriorityMatch (fun r => RuleEngine.testRule r facts) rules = none ↔
      ∀ r ∈ rules, RuleEngine.testRule r facts = false) ∧
    (match RuleEngine.lowestPriorityMatch (fun r => RuleEngine.testRule r facts) rules with
      | some s =>
        RuleEngine.evaluate (RuleEngine.sortByPriority rules) facts auditId =
          { result := s.action
            matchedRule := some s
            reason := s.reason
            score := s.score.getD (RuleEngine.defaultScore s.action)
            auditId := auditId }
      | none =>
        RuleEngine.evaluate (RuleEngine.sortByPriority rules) facts auditId =
          RuleEngine.noMatchDecision auditId) := by
  refine ⟨RuleEngine.lowestPriorityMatch_eq_none_iff _ _, ?_⟩
  have hfind := RuleEngine.find?_sortByPriority (fun r => RuleEngine.testRule r facts) rules
  cases hsel : RuleEngine.lowestPriorityMatch (fun r => RuleEngine.testRule r facts) rules with
  | some s =>
    have : (RuleEngine.sortByPriority rules).find? (fun r => RuleEngine.testRule r facts) =
        some s := hfind.trans hsel
    simp [RuleEngine.evaluate, this]
  | none =>
    have : (RuleEngine.sortByPriority rules).find? (fun r => RuleEngine.testRule r facts) =
        none := hfind.trans hsel
    simp [RuleEngine.evaluate, this]

/-- C3 witness: the selection instantiated at a concrete two-rule set where
the later, lower-priority rule wins. -/
theorem c3_rule_engine_priority_witness :
    RuleEngine.evaluate (RuleEngine.sortByPriority [exRuleEarly, exRuleLate]) [] "u" =
      { result := exRuleLate.action
        matchedRule := some exRuleLate
        reason := exRuleLate.reason
        score := exRuleLate.score.getD (RuleEngine.defaultScore exRuleLate.action)
        auditId := "u" } :=
  (c3_rule_engine_priority [exRuleEarly, exRuleLate] [] "u").2

/-- C9: `RuleEngine.loadRules` mutates its argument — after the call the
caller's array holds an ascending-priority permutation of the rules it
passed in (and, on the concrete two-rule example, no longer the order the
caller supplied). -/
theorem c9_load_rules_mutates_argument :
    (∀ rules : List Rule,
      List.Perm (RuleEngine.loadRulesCallerArray rules) rules ∧
      List.Sorted RuleEngine.priLe (RuleEngine.loadRulesCallerArray rules)) ∧
    RuleEngine.loadRulesCallerArray [exRuleEarly, exRuleLate] =
      [exRuleLate, exRuleEarly] ∧
    RuleEngine.loadRulesCallerArray [exRuleEarly, exRuleLate] ≠
      [exRuleEarly, exRuleLate] := by
  refine ⟨fun rules => ⟨List.perm_insertionSort RuleEngine.priLe rules,
    List.sorted_insertionSort RuleEngine.priLe rules⟩, by decide, by decide⟩

theorem countP_passed_lt_length {l : List ComplianceCheck} {x : ComplianceCheck}
    (hx : x ∈ l) (hnp : x.passed = false) :
    l.countP (fun c => c.passed) < l.length := by
  induction l with
  | nil => cases hx
  | cons y ys ih =>
    rw [List.countP_cons, List.length_cons]
    have hle : ys.countP (fun c => c.passed) ≤ ys.length := List.countP_le_length _
    rcases List.mem_cons.mp hx with rfl | hmem
    · simp [hnp]
      omega
    · have := ih hmem
      by_cases hy : y.passed = true <;> simp [hy] <;> omega

theorem deriveOverallStatus_precedence (checks : List ComplianceCheck) :
    (UAEComplianceLayer.deriveOverallStatus checks =
        .NON_COMPLIANT ↔ ∃ c ∈ checks, c.status = .NON_COMPLIANT) ∧
    (UAEComplianceLayer.deriveOverallStatus checks =
        .REVIEW_REQUIRED ↔
      (¬ ∃ c ∈ checks, c.status = .NON_COMPLIANT) ∧
        ∃ c ∈ checks, c.status = .REVIEW_REQUIRED) ∧
    (UAEComplianceLayer.deriveOverallStatus checks =
        .COMPLIANT ↔
      (¬ ∃ c ∈ checks, c.status = .NON_COMPLIANT) ∧
        ¬ ∃ c ∈ checks, c.status = .REVIEW_REQUIRED) := by
  unfold UAEComplianceLayer.deriveOverallStatus
  by_cases hnc : checks.any (fun c => c.status == .NON_COMPLIANT) = true
  · have hex : ∃ c ∈ checks, c.status = .NON_COMPLIANT := by
      simpa using List.any_eq_true.mp hnc
    simp [hnc, hex]
  · have hnex : ¬ ∃ c ∈ checks, c.status = .NON_COMPLIANT := by
      intro hcon
      exact hnc (List.any_eq_true.mpr (by simpa using hcon))
    by_cases hrr : checks.any (fun c => c.status == .REVIEW_REQUIRED) = true
    · have hex : ∃ c ∈ checks, c.status = .REVIEW_REQUIRED := by
        simpa using List.any_eq_true.mp hrr
      simp [hnc, hrr, hnex, hex]
    · have hnex2 : ¬ ∃ c ∈ checks, c.status = .REVIEW_REQUIRED := by
        intro hcon
        exact hrr (List.any_eq_true.mpr (by simpa using hcon))
      simp [hnc, hrr, hnex, hnex2]

/-- C8: in every report produced by `generateReport` (hence by
`UAEComplianceLayer.evaluate`), `overallStatus` is NON_COMPLIANT iff some
check is NON_COMPLIANT; otherwise REVIEW_REQUIRED iff some check is
REVIEW_REQUIRED; otherwise COMPLIANT. -/
theorem c8_overall_status_precedence (checks : List ComplianceCheck)
    (frameworks : List Framework) :
    ((UAEComplianceLayer.generateReport checks frameworks).overallStatus =
        .NON_COMPLIANT ↔ ∃ c ∈ checks, c.status = .NON_COMPLIANT) ∧
    ((UAEComplianceLayer.generateReport checks frameworks).overallStatus =
        .REVIEW_REQUIRED ↔
      (¬ ∃ c ∈ checks, c.status = .NON_COMPLIANT) ∧
        ∃ c ∈ checks, c.status = .REVIEW_REQUIRED) ∧
    ((UAEComplianceLayer.generateReport checks frameworks).overallStatus =
        .COMPLIANT ↔
      (¬ ∃ c ∈ checks, c.status = .NON_COMPLIANT) ∧
        ¬ ∃ c ∈ checks, c.status = .REVIEW_REQUIRED) :=
  deriveOverallStatus_precedence checks

/-- C8 witness: the precedence instantiated at a concrete one-check report. -/
theorem c8_overall_status_precedence_witness :
    (UAEComplianceLayer.generateReport [UAEComplianceLayer.adgmCheck] []).overallStatus =
      .REVIEW_REQUIRED :=
  (c8_overall_status_precedence [UAEComplianceLayer.adgmCheck] []).2.1.mpr
    ⟨by simp [UAEComplianceLayer.adgmCheck], UAEComplianceLayer.adgmCheck,
      List.mem_singleton.mpr rfl, rfl⟩

theorem collectChecks_length_le (frameworks : List Framework) (f : CheckerFindings) :
    (UAEComplianceLayer.collectChecks frameworks f).length ≤ 24 := by
  unfold UAEComplianceLayer.collectChecks
  split_ifs <;>
    simp [PDPLChecker.check, PDPLChecker.checkExtended, AIEthicsGuardrails.evaluate,
      NESAControls.assess, DubaiAILawChecker.check]

theorem adgmCheck_mem_collectChecks {frameworks : List Framework} (f : CheckerFindings)
    (h : frameworks.contains Framework.ADGM = true) :
    UAEComplianceLayer.adgmCheck ∈ UAEComplianceLayer.collectChecks frameworks f := by
  unfold UAEComplianceLayer.collectChecks
  rw [if_pos h]
  simp

/-- C10: whenever the configured framework set includes ADGM,
`UAEComplianceLayer.evaluate` appends the fixed ADGM check (status
REVIEW_REQUIRED, `passed = false`), so the report's `overallStatus` is never
COMPLIANT and its score is strictly below 100. -/
theorem c10_adgm_never_compliant (frameworks : List Framework) (f : CheckerFindings)
    (h : frameworks.contains Framework.ADGM = true) :
    UAEComplianceLayer.adgmCheck ∈ (UAEComplianceLayer.evaluate frameworks f).checks ∧
    UAEComplianceLayer.adgmCheck.status = .REVIEW_REQUIRED ∧
    UAEComplianceLayer.adgmCheck.passed = false ∧
    (UAEComplianceLayer.evaluate frameworks f).overallStatus ≠ .COMPLIANT ∧
    (UAEComplianceLayer.evaluate frameworks f).score < 100 := by
  have hmem : UAEComplianceLayer.adgmCheck ∈ UAEComplianceLayer.collectChecks frameworks f :=
    adgmCheck_mem_collectChecks f h
  have hchecks : (UAEComplianceLayer.evaluate frameworks f).checks =
      UAEComplianceLayer.collectChecks frameworks f := rfl
  refine ⟨hchecks ▸ hmem, rfl, rfl, ?_, ?_⟩
  · -- overall status: at least one NON_COMPLIANT or REVIEW_REQUIRED check exists
    have hstat := deriveOverallStatus_precedence
      (UAEComplianceLayer.collectChecks frameworks f)
    intro hcompl
    have hc : UAEComplianceLayer.deriveOverallStatus
        (UAEComplianceLayer.collectChecks frameworks f) =
        .COMPLIANT := hcompl
    have := (hstat.2.2.mp hc).2
    exact this ⟨UAEComplianceLayer.adgmCheck, hmem, rfl⟩
  · -- score: the checks are non-empty, bounded by 24, and at least one fails
    have hlenpos : 0 < (UAEComplianceLayer.collectChecks frameworks f).length :=
      List.length_pos.mpr (List.ne_nil_of_mem hmem)
    have hlenle : (UAEComplianceLayer.collectChecks frameworks f).length ≤ 24 :=
      collectChecks_length_le frameworks f
    have hcount : (UAEComplianceLayer.collectChecks frameworks f).countP
        (fun c => c.passed) < (UAEComplianceLayer.collectChecks frameworks f).length :=
      countP_passed_lt_length hmem rfl
    have hscore : (UAEComplianceLayer.evaluate frameworks f).score =
        if (UAEComplianceLayer.collectChecks frameworks f).length = 0 then 100
        else UAEComplianceLayer.roundedPercent
          ((UAEComplianceLayer.collectChecks frameworks f).countP (fun c => c.passed))
          (UAEComplianceLayer.collectChecks frameworks f).length := rfl
    rw [hscore, if_neg (by omega)]
    unfold UAEComplianceLayer.roundedPercent
    set p := (UAEComplianceLayer.collectChecks frameworks f).countP (fun c => c.passed)
    set n := (UAEComplianceLayer.collectChecks frameworks f).length
    have h2n : 0 < 2 * n := by omega
    rw [Nat.div_lt_iff_lt_mul h2n]
    omega

/-- C10 witness: the conclusion instantiated at a configuration containing
only ADGM. -/
theorem c10_adgm_never_compliant_witness :
    ([Framework.ADGM].contains Framework.ADGM = true) ∧
    (UAEComplianceLayer.evaluate [Framework.ADGM]
      (CheckerFindings.mk true true true true true true true true true true true
        true true true true true true true true true true true true)).score < 100 :=
  ⟨by decide, (c10_adgm_never_compliant [Framework.ADGM] _ (by decide)).2.2.2.2⟩

/-- C2: whenever the pre-check evaluation returns REJECTED, `run` returns —
and `runStream` completes — without any LM invocation event; the response
output is exactly `"Blocked by rule: "` followed by the pre-decision's
reason (hence begins with that prefix), with exactly one decision and one
audit entry, and exactly one entry is appended to the audit log (for
`runStream`, inside the `onDone` response when a callback is supplied). -/
theorem c2_rejected_short_circuit (ctx : AgentCtx) (st : LoggerState) (input : Facts)
    (eff : AgentEff)
    (h : (RuleEngine.evaluate ctx.compiled input eff.preAuditId).result = .REJECTED) :
    let pre := RuleEngine.evaluate ctx.compiled input eff.preAuditId
    let preEntry := (AuditLogger.log st pre input eff.preLogTs eff.preLogId).1
    (MizanAgent.run ctx st input eff).result = .ok
      { output := "Blocked by rule: " ++ pre.reason
        decisions := [pre]
        auditTrail := [preEntry] } ∧
    (MizanAgent.run ctx st input eff).events.map AgentEvent.kind = [EventKind.logged] ∧
    (MizanAgent.run ctx st input eff).logger.entries = st.entries ++ [preEntry] ∧
    (∀ onDone : Bool,
      (MizanAgent.runStream ctx st input eff onDone).chunks =
        ["Blocked by rule: " ++ pre.reason] ∧
      (MizanAgent.runStream ctx st input eff onDone).events.map AgentEvent.kind =
        (if onDone then [EventKind.chunk, EventKind.logged] else [EventKind.chunk])) ∧
    (MizanAgent.runStream ctx st input eff true).onDoneResponse = some
      { output := "Blocked by rule: " ++ pre.reason
        decisions := [pre]
        auditTrail := [preEntry] } ∧
    (MizanAgent.runStream ctx st input eff true).logger.entries =
      st.entries ++ [preEntry] := by
  intro pre preEntry
  refine ⟨?_, ?_, ?_, ?_, ?_, ?_⟩
  · simp only [MizanAgent.run, h]
    rfl
  · simp only [MizanAgent.run, h]
    rfl
  · simp only [MizanAgent.run, h]
    rfl
  · intro onDone
    cases onDone
    · refine ⟨?_, ?_⟩ <;> (simp only [MizanAgent.runStream, h]; rfl)
    · refine ⟨?_, ?_⟩ <;> (simp only [MizanAgent.runStream, h]; rfl)
  · simp only [MizanAgent.runStream, h]
    rfl
  · simp only [MizanAgent.runStream, h]
    rfl

/-- C2 witness: the short-circuit at a concrete always-rejecting rule set. -/
theorem c2_rejected_short_circuit_witness :
    (RuleEngine.evaluate rejectingCtx.compiled [] exEff.preAuditId).result = .REJECTED ∧
    (MizanAgent.run rejectingCtx {} [] exEff).events.map AgentEvent.kind =
      [EventKind.logged] :=
  ⟨by decide, (c2_rejected_short_circuit rejectingCtx {} [] exEff (by decide)).2.1⟩

/-- C5 (amended): in every `runStream` invocation that proceeds past the
pre-check — whether the adapter streams natively through `completeStream` or
the `think` fallback is used — the LM call comes first: the event trace
begins with the LM invocation, so no audit-log append precedes it; an LM
failure propagates out with the audit log unchanged (the pre-check entry has
NOT been persisted); on success with an `onDone` callback, both entries are
appended only then. -/
theorem c5_runstream_logs_after_lm (ctx : AgentCtx) (st : LoggerState) (input : Facts)
    (eff : AgentEff) (onDone : Bool)
    (hpre : (RuleEngine.evaluate ctx.compiled input eff.preAuditId).result ≠ .REJECTED) :
    ((MizanAgent.runStream ctx st input eff onDone).events.head?.map AgentEvent.kind =
      some EventKind.lm) ∧
    (ctx.completeStream? = none →
      (∀ e, ctx.think input = .error e →
        (MizanAgent.runStream ctx st input eff onDone).result = .error e ∧
        (MizanAgent.runStream ctx st input eff onDone).logger = st ∧
        (MizanAgent.runStream ctx st input eff onDone).events = [.lmInvoked]) ∧
      (∀ out, ctx.think input = .ok out → onDone = true →
        (MizanAgent.runStream ctx st input eff onDone).logger.entries.length =
          st.entries.length + 2)) ∧
    (∀ completeStream, ctx.completeStream? = some completeStream →
      (∀ e, completeStream (jsStringify (Value.vObj input)) = .error e →
        (MizanAgent.runStream ctx st input eff onDone).result = .error e ∧
        (MizanAgent.runStream ctx st input eff onDone).logger = st ∧
        (MizanAgent.runStream ctx st input eff onDone).events = [.lmInvoked]) ∧
      (∀ chunks, completeStream (jsStringify (Value.vObj input)) = .ok chunks →
        onDone = true →
        (MizanAgent.runStream ctx st input eff onDone).logger.entries.length =
          st.entries.length + 2)) := by
  refine ⟨?_, ?_, ?_⟩
  · cases hcs : ctx.completeStream? with
    | none =>
      cases hth : ctx.think input with
      | error e => simp [MizanAgent.runStream, hpre, hcs, hth, AgentEvent.kind]
      | ok out =>
        cases onDone <;>
          simp [MizanAgent.runStream, AuditLogger.log, hpre, hcs, hth, AgentEvent.kind]
    | some completeStream =>
      cases hcall : completeStream (jsStringify (Value.vObj input)) with
      | error e => simp [MizanAgent.runStream, hpre, hcs, hcall, AgentEvent.kind]
      | ok chunks =>
        cases onDone <;>
          simp [MizanAgent.runStream, AuditLogger.log, hpre, hcs, hcall, AgentEvent.kind]
  · intro hcs
    refine ⟨?_, ?_⟩
    · intro e hth
      refine ⟨?_, ?_, ?_⟩ <;> simp [MizanAgent.runStream, hpre, hcs, hth]
    · intro out hth hod
      subst hod
      simp [MizanAgent.runStream, AuditLogger.log, hpre, hcs, hth]
  · intro completeStream hcs
    refine ⟨?_, ?_⟩
    · intro e hcall
      refine ⟨?_, ?_, ?_⟩ <;> simp [MizanAgent.runStream, hpre, hcs, hcall]
    · intro chunks hcall hod
      subst hod
      simp [MizanAgent.runStream, AuditLogger.log, hpre, hcs, hcall]

/-- C5 witness: the amended behaviour at concrete passing and failing
contexts of both adapter branches. -/
theorem c5_runstream_logs_after_lm_witness :
    ((MizanAgent.runStream failingCtx {} [] exEff true).logger = ({} : LoggerState) ∧
      (MizanAgent.runStream failingCtx {} [] exEff true).result = .error "boom") ∧
    (MizanAgent.runStream passingCtx {} [] exEff true).logger.entries.length = 0 + 2 ∧
    ((MizanAgent.runStream streamFailingCtx {} [] exEff true).logger = ({} : LoggerState) ∧
      (MizanAgent.runStream streamFailingCtx {} [] exEff true).result = .error "neterr") ∧
    (MizanAgent.runStream streamingCtx {} [] exEff true).logger.entries.length = 0 + 2 := by
  refine ⟨?_, ?_, ?_, ?_⟩
  · have h := ((c5_runstream_logs_after_lm failingCtx {} [] exEff true
      (by decide)).2.1 rfl).1 "boom" rfl
    exact ⟨h.2.1, h.1⟩
  · exact ((c5_runstream_logs_after_lm passingCtx {} [] exEff true
      (by decide)).2.1 rfl).2 "a b" rfl rfl
  · have h := ((c5_runstream_logs_after_lm streamFailingCtx {} [] exEff true
      (by decide)).2.2 _ rfl).1 "neterr" rfl
    exact ⟨h.2.1, h.1⟩
  · exact ((c5_runstream_logs_after_lm streamingCtx {} [] exEff true
      (by decide)).2.2 _ rfl).2 ["x ", "y "] rfl rfl

/-- C5 counterexample: a concrete `runStream` invocation that proceeds past
the pre-check in which the LM is invoked but no audit entry has been
appended before it — the event trace is the LM invocation, the chunks, then
the two appends — and a failing LM call that leaves the audit log with no
pre-check entry at all, refuting the claim that the pre-check entry is
persisted before the LM adapter is invoked. -/
theorem c5_pre_entry_not_persisted_counterexample :
    (RuleEngine.evaluate passingCtx.compiled [] exEff.preAuditId).result ≠ .REJECTED ∧
    (MizanAgent.runStream passingCtx {} [] exEff true).events.map AgentEvent.kind =
      [EventKind.lm, EventKind.chunk, EventKind.chunk, EventKind.logged, EventKind.logged] ∧
    ((MizanAgent.runStream passingCtx {} [] exEff true).events.takeWhile
      (fun e => !(e.kind == EventKind.lm))).length = 0 ∧
    (MizanAgent.runStream failingCtx {} [] exEff true).result = .error "boom" ∧
    (MizanAgent.runStream failingCtx {} [] exEff true).logger.entries = [] := by
  refine ⟨by decide, by decide, by decide, rfl, rfl⟩

theorem jsNumLt_nan_left (x : JSNum) : jsNumLt JSNum.nan x = false := by
  cases x <;> rfl

theorem jsNumLt_nan_right (x : JSNum) : jsNumLt x JSNum.nan = false := by
  cases x <;> rfl

theorem jsNumLe_nan_left (x : JSNum) : jsNumLe JSNum.nan x = false := by
  cases x <;> rfl

theorem jsNumLe_nan_right (x : JSNum) : jsNumLe x JSNum.nan = false := by
  cases x <;> rfl

/-- C6 (amended): the ordering operators follow JavaScript's abstract
relational comparison — when both operands are strings after `ToPrimitive`
the comparison is lexicographic on code units; in every other case both
operands are coerced with `ToNumber` and the comparison is false whenever
either coercion yields NaN. -/
theorem c6_ordering_semantics :
    (∀ a b : String,
      applyCmpOp .lt (Value.vStr a) (Value.vStr b) = strLt a b ∧
      applyCmpOp .gt (Value.vStr a) (Value.vStr b) = strLt b a ∧
      applyCmpOp .le (Value.vStr a) (Value.vStr b) = !strLt b a ∧
      applyCmpOp .ge (Value.vStr a) (Value.vStr b) = !strLt a b) ∧
    (∀ l r : Value,
      (isStrVal (toPrimitive l) && isStrVal (toPrimitive r)) = false →
      (toNumber (toPrimitive l) = JSNum.nan ∨ toNumber (toPrimitive r) = JSNum.nan) →
      applyCmpOp .lt l r = false ∧ applyCmpOp .le l r = false ∧
      applyCmpOp .gt l r = false ∧ applyCmpOp .ge l r = false) := by
  refine ⟨fun a b => ⟨rfl, rfl, rfl, rfl⟩, ?_⟩
  intro l r hs hn
  cases l <;> cases r <;>
    simp_all [applyCmpOp, jsLt, jsLe, jsGt, jsGe, toPrimitive, isStrVal, toNumber,
      jsNumLt_nan_left, jsNumLt_nan_right, jsNumLe_nan_left, jsNumLe_nan_right]

/-- C6 witness: an `undefined` operand (NaN after coercion) makes `<`
false. -/
theorem c6_ordering_semantics_witness :
    ((isStrVal (toPrimitive Value.vUndef) && isStrVal (toPrimitive (Value.vNum 1))) = false) ∧
    (toNumber (toPrimitive Value.vUndef) = JSNum.nan ∨
      toNumber (toPrimitive (Value.vNum 1)) = JSNum.nan) ∧
    applyCmpOp .lt Value.vUndef (Value.vNum 1) = false :=
  ⟨by decide, Or.inl rfl,
    (c6_ordering_semantics.2 Value.vUndef (Value.vNum 1) (by decide) (Or.inl rfl)).1⟩

/-- C6 counterexample: `"b" > "a"` evaluates to true although neither
operand is numeric after coercion (both coerce to NaN), refuting the claim
that a comparison with a non-numeric operand evaluates to false. -/
theorem c6_string_ordering_counterexample :
    applyCmpOp .gt (Value.vStr "b") (Value.vStr "a") = true ∧
    toNumber (Value.vStr "b") = JSNum.nan ∧ toNumber (Value.vStr "a") = JSNum.nan ∧
    evaluate "\"b\" > \"a\"" [] = true := by
  refine ⟨by decide, by decide, by decide, by decide⟩

/-- C7 (amended): under the loose equality of the expression language a
`null` operand compares equal to exactly `null` and `undefined` — in
particular an identifier absent from the facts, which resolves to the
distinguished `undefined` value, DOES compare equal to `null`; and on every
facts mapping the expression `x == null` evaluates to the loose equality of
the resolved identifier against `null`. -/
theorem c7_null_loose_equality :
    (∀ v : Value, looseEq v Value.vNull = true ↔ v = Value.vNull ∨ v = Value.vUndef) ∧
    (∀ facts : Facts,
      evaluate "x == null" facts = looseEq (resolveIdent "x" facts) Value.vNull) := by
  refine ⟨?_, fun _ => rfl⟩
  intro v
  cases v <;> simp [looseEq]

/-- C7 witness: `undefined == null` is true, and the evaluator agrees on a
concrete facts mapping. -/
theorem c7_null_loose_equality_witness :
    looseEq Value.vUndef Value.vNull = true ∧
    evaluate "x == null" [("x", Value.vNum 3)] =
      looseEq (resolveIdent "x" [("x", Value.vNum 3)]) Value.vNull :=
  ⟨(c7_null_loose_equality.1 Value.vUndef).mpr (Or.inr rfl),
    c7_null_loose_equality.2 [("x", Value.vNum 3)]⟩

/-- C7 counterexample: with an empty facts mapping, `x` resolves to
`undefined`, which is a different value from `null`, yet `x == null`
evaluates to true — refuting "the result is true iff x evaluates to the
null value". -/
theorem c7_undefined_eq_null_counterexample :
    evaluate "x == null" [] = true ∧
    resolveIdent "x" [] = Value.vUndef ∧
    Value.vUndef ≠ Value.vNull := by
  refine ⟨by decide, rfl, fun h => Value.noConfusion h⟩

/-- C4 (code bug evidence): the condition `")("` is not a well-formed
expression — the parser rejects it, so at evaluation time the error is
swallowed and the predicate returns false — yet `compile` (which only
tokenizes) accepts it and `loadRules` succeeds, deferring the syntax error
to evaluation time, contrary to the documented fail-fast contract. -/
theorem c4_compile_accepts_unparsable_condition :
    compileOk ")(" = true ∧
    (evalExpr ")(" []).isOk = false ∧
    evaluate ")(" [] = false ∧
    RuleEngine.loadRules [unparsableRule] = .ok [unparsableRule] := by
  refine ⟨by decide, by decide, by decide, rfl⟩

/-- C1 (amended): every entry produced by `AuditLogger.log` stores the
lowercase hex SHA-256 of the previous chain hash concatenated with the
`JSON.stringify` serialisation of the entry without its hash field — a
serialisation that emits object keys in insertion order
(`id, timestamp, input, output, rule, previousHash`, nested objects in
construction order), not sorted; the entry's `previousHash` is the chain
pointer at the time of the call, and the logger appends the entry and
advances the pointer to the new hash. -/
theorem c1_audit_log_hash_insertion_order (st : LoggerState) (d : Decision)
    (input : Facts) (nowIso freshId : String) :
    ((AuditLogger.log st d input nowIso freshId).1.hash =
      Sha.sha256Hex ((AuditLogger.log st d input nowIso freshId).1.previousHash ++
        jsStringify (AuditLogger.entryNoHashJson
          (AuditLogger.log st d input nowIso freshId).1))) ∧
    (AuditLogger.log st d input nowIso freshId).1.previousHash = st.previousHash ∧
    (AuditLogger.log st d input nowIso freshId).2.previousHash =
      (AuditLogger.log st d input nowIso freshId).1.hash ∧
    (AuditLogger.log st d input nowIso freshId).2.entries =
      st.entries ++ [(AuditLogger.log st d input nowIso freshId).1] :=
  ⟨rfl, rfl, rfl, rfl⟩

/-- C1 witness: the chain bookkeeping instantiated at a concrete append to a
fresh logger. -/
theorem c1_audit_log_hash_insertion_order_witness :
    (AuditLogger.log {} exDecision [] "t" "f").1.previousHash = genesisHash ∧
    (AuditLogger.log {} exDecision [] "t" "f").2.entries =
      [] ++ [(AuditLogger.log {} exDecision [] "t" "f").1] :=
  ⟨(c1_audit_log_hash_insertion_order {} exDecision [] "t" "f").2.1,
    (c1_audit_log_hash_insertion_order {} exDecision [] "t" "f").2.2.2⟩

/-- C1 counterexample: for a concrete entry produced by `AuditLogger.log`
from a fresh logger, the insertion-order `JSON.stringify` pre-image differs
from the specification's sorted-key canonical serialisation, and the stored
hash is NOT the SHA-256 of the previous hash concatenated with the canonical
serialisation of the entry without its hash field — refuting the claim's
hash invariant as stated. -/
theorem c1_canonical_hash_counterexample :
    jsStringify (AuditLogger.entryNoHashJson
        (AuditLogger.log {} exDecision [] "t" "f").1) ≠
      canonicalStringify (AuditLogger.entryNoHashJson
        (AuditLogger.log {} exDecision [] "t" "f").1) ∧
    (AuditLogger.log {} exDecision [] "t" "f").1.hash ≠
      Sha.sha256Hex ((AuditLogger.log {} exDecision [] "t" "f").1.previousHash ++
        canonicalStringify (AuditLogger.entryNoHashJson
          (AuditLogger.log {} exDecision [] "t" "f").1)) := by
  refine ⟨by decide, by decide⟩

end Mizan
